/-
Verification of the temvote core: the concurrent sensor-status cache and its
refresh/aggregation engine, together with the transactional vote/session
recording logic.

The Go source is shallowly embedded:
  * Go maps (`map[RoomID]map[ThingName]SensorStatus`) become association lists;
  * `time.Time` values become `Int` epoch instants (comparisons `After`, `>=`,
    `<` become the corresponding `Int` comparisons); int64 arithmetic on epoch
    times is modelled on unbounded `Int` (no operation approaches the int64
    bounds for epoch timestamps);
  * Go `float64` payload values (temperature, humidity) are carried as `Rat`;
    the only float operation the core performs on times,
    `math.Abs(float64(a-b)) <= 60`, is exact on integers of this magnitude and
    is modelled as `|a - b| ≤ 60` on `Int`;
  * fallible operations return `Except`/`Option`; `panic` becomes `Option.none`;
  * goroutine fan-out / fan-in in `updateAllSensorStatuses` is linearised: the
    per-sensor fetches are independent and each claim is order-insensitive;
  * the long-running `cacheUpdater` loop becomes a fuel-indexed event trace.
-/
import Mathlib

namespace Temvote

/-! ## Basic identifiers (types of `RoomID` etc. live outside the given
sources; they are identifier-like and modelled as `Nat`/`String`). -/

abbrev RoomID := Nat
abbrev ThingName := String
abbrev SessionID := Nat
abbrev VoteID := Nat

/-- Go declares `type VoteChoice string` with the three constants used by the program. -/
inductive VoteChoice
  | Hot
  | Comfort
  | Cold
deriving DecidableEq, Repr

/-- Go struct `SensorStatus` (part_001, lines 135-142): temperature, humidity,
connectivity flag, last-updated epoch seconds, and the cache expiry instant. -/
structure SensorStatus where
  temperature : Rat
  humidity : Rat
  isConnected : Bool
  lastUpdated : Int
  expire : Int
deriving DecidableEq, Repr

/-! ## Association-list model of the two-level sensor cache -/

/-- Lookup in an association list, mirroring a Go map read `m[k]`. -/
def lookupA {α β : Type} [DecidableEq α] : List (α × β) → α → Option β
  | [], _ => none
  | (k, v) :: rest, k' => if k' = k then some v else lookupA rest k'

/-- Update in an association list, mirroring a Go map write `m[k] = v`. -/
def setA {α β : Type} [DecidableEq α] : List (α × β) → α → β → List (α × β)
  | [], k, v => [(k, v)]
  | (k', v') :: rest, k, v =>
      if k = k' then (k, v) :: rest else (k', v') :: setA rest k v

/-- The cache `RoomStatusManager.sensorCache : map[RoomID]map[ThingName]SensorStatus`. -/
abbrev SensorCache := List (RoomID × List (ThingName × SensorStatus))

/-- Function `getSensorStatusFromCache` (part_001, lines 338-353): under the read lock,
look the room up; if present, keep exactly the readings whose `expire` is
strictly after `now` (`cache[i].expire.After(time.Now())`), reporting
`found = (len(array) > 0)`; if the room is absent return `([], false)`. -/
def getSensorStatusFromCache (cache : SensorCache) (id : RoomID) (now : Int) :
    List SensorStatus × Bool :=
  match lookupA cache id with
  | some sub =>
      let array := (sub.map Prod.snd).filter (fun s => decide (now < s.expire))
      (array, decide (0 < array.length))
  | none => ([], false)

/-! ## Telemetry fetch (`thingworx.go` and the extraction in
`updateSensorStatus`) -/

/-- The values `encoding/json.Unmarshal` produces into an `interface{}`:
JSON numbers come back as `float64` (modelled `Rat`). -/
inductive JSON
  | null
  | bool (b : Bool)
  | num (q : Rat)
  | str (s : String)
  | arr (elems : List JSON)
  | obj (fields : List (String × JSON))

/-- The error outcomes of the fetch pipeline. `net` covers a failed
`http.NewRequest`/`client.Do`; `proxy` covers the deferred errors of go-dproxy
(wrong type or missing key/index along the access path). -/
inductive FetchErr
  | net
  | proxy
deriving DecidableEq, Repr

/-- A go-dproxy `Proxy`: either a drilled-down JSON value or an error proxy
that surfaces its error at the first terminal access. -/
abbrev Proxy := Except FetchErr JSON

/-- Method `Proxy.M(key)`: drill into an object field; a non-object value or a
missing key yields an error proxy. -/
def proxyM (p : Proxy) (key : String) : Proxy :=
  match p with
  | .error e => .error e
  | .ok (JSON.obj fields) =>
      match lookupA fields key with
      | some v => .ok v
      | none => .error .proxy
  | .ok _ => .error .proxy

/-- Method `Proxy.A(i)`: drill into an array element; a non-array value or an
out-of-range index yields an error proxy. -/
def proxyA (p : Proxy) (i : Nat) : Proxy :=
  match p with
  | .error e => .error e
  | .ok (JSON.arr elems) =>
      match elems.get? i with
      | some v => .ok v
      | none => .error .proxy
  | .ok _ => .error .proxy

/-- Method `Proxy.Float64()`: terminal access expecting a JSON number. -/
def proxyFloat64 (p : Proxy) : Except FetchErr Rat :=
  match p with
  | .error e => .error e
  | .ok (JSON.num q) => .ok q
  | .ok _ => .error .proxy

/-- Truncation toward zero of a rational, as the Go conversion `int64(float64)`
behaves on in-range values. -/
def ratTrunc (q : Rat) : Int := Int.tdiv q.num (q.den : Int)

/-- Method `Proxy.Int64()`: terminal access expecting a number, converted to an
integer (go-dproxy converts the unmarshalled `float64` with `int64(v)`). -/
def proxyInt64 (p : Proxy) : Except FetchErr Int :=
  match p with
  | .error e => .error e
  | .ok (JSON.num q) => .ok (ratTrunc q)
  | .ok _ => .error .proxy

/-- One HTTP exchange with the ThingWorx endpoint, as `Properties` sees it:
the response status code and the body. `body = none` models a body that is
not valid JSON (in the Go code the `json.Unmarshal` error is ignored and `v`
stays `nil`). -/
structure HTTPResponse where
  status : Nat
  body : Option JSON

/-- Method `ThingWorxClient.Properties` (thingworx.go, lines 18-43): a network
failure is returned as an error; otherwise the body is unmarshalled (parse
errors ignored, leaving the `nil` value) and the proxy `rows[0]` is returned.
The response status code is bound but never inspected. -/
def Properties (resp : Except FetchErr HTTPResponse) : Except FetchErr Proxy :=
  match resp with
  | .error e => .error e
  | .ok r => .ok (proxyA (proxyM (.ok (r.body.getD JSON.null)) "rows") 0)

/-- The field extraction of `updateSensorStatus` (part_001, lines 434-449):
`Properties`, then `temperature`/`humidity` as floats and `lastUpdated` as an
integer, propagating the first error. -/
def fetchFields (resp : Except FetchErr HTTPResponse) :
    Except FetchErr (Rat × Rat × Int) :=
  match Properties resp with
  | .error e => .error e
  | .ok prop =>
      match proxyFloat64 (proxyM prop "temperature") with
      | .error e => .error e
      | .ok t =>
          match proxyFloat64 (proxyM prop "humidity") with
          | .error e => .error e
          | .ok h =>
              match proxyInt64 (proxyM prop "lastUpdated") with
              | .error e => .error e
              | .ok luMs => .ok (t, h, luMs)

/-- Constant `CACHE_EXPIRE = 3 * time.Minute`, in seconds of epoch time. -/
def CACHE_EXPIRE : Int := 180

/-- Function `updateSensorStatus` (part_001, lines 431-468): extract the fields,
convert `lastUpdated` from epoch milliseconds to seconds (Go int64 division
truncates toward zero), derive `IsConnected` from `|now - lastUpdated| ≤ 60`,
stamp `expire = now + CACHE_EXPIRE`; a disconnected reading is logged and
discarded (the cache is returned unchanged), a connected one is written into
the sub-map of the room. -/
def updateSensorStatus (cache : SensorCache) (id : RoomID) (name : ThingName)
    (resp : Except FetchErr HTTPResponse) (now : Int) :
    Except FetchErr SensorCache :=
  match fetchFields resp with
  | .error e => .error e
  | .ok (t, h, luMs) =>
      let lu := Int.tdiv luMs 1000
      let isConn := decide (|now - lu| ≤ 60)
      let stat : SensorStatus :=
        { temperature := t, humidity := h, isConnected := isConn,
          lastUpdated := lu, expire := now + CACHE_EXPIRE }
      if isConn then
        .ok (setA cache id (setA ((lookupA cache id).getD []) name stat))
      else
        .ok cache

/-! ## Vote / session store (`RoomStatusTx`, part_001) -/

/-- The `Session` struct (defined outside the given sources; the core reads
its id and, in the session table, its expiry). -/
structure Session where
  sessionID : SessionID
  expire : Int
deriving DecidableEq, Repr

/-- A row of the `vote` table, the Go `Vote` struct:
`vote(vote_id, session_id, room_id, choice, timestamp)`; `vote_id = 0`
means "not yet created". -/
structure VoteRow where
  voteID : VoteID
  sessionID : SessionID
  roomID : RoomID
  choice : VoteChoice
  timestamp : Int
deriving DecidableEq, Repr

/-- The vote table together with the auto-increment id the storage layer
assigns to the next inserted row. -/
structure VoteDB where
  rows : List VoteRow
  nextID : VoteID
deriving DecidableEq, Repr

/-- The `WHERE session_id=? AND room_id=?` condition used by `GetMyVote` and
`Vote`. -/
def votePair (sid : SessionID) (rid : RoomID) (r : VoteRow) : Bool :=
  r.sessionID == sid && r.roomID == rid

/-- Modelled from the spec: `Vote.UpdateChoice` lives in a repository file
that is not under src/ (only its caller `RoomStatusTx.Vote` is). Per the
spec (§3, §4.4): a vote id of 0 means "not yet created" and the call performs
an insert of a fresh row (the storage layer assigning the next id); a nonzero
id performs an update of the choice and timestamp of that row. -/
def VoteRow.UpdateChoice (db : VoteDB) (v : VoteRow) (choice : VoteChoice)
    (now : Int) : VoteDB :=
  if v.voteID = 0 then
    let fresh : VoteRow :=
      { voteID := db.nextID, sessionID := v.sessionID, roomID := v.roomID,
        choice := choice, timestamp := now }
    { rows := db.rows ++ [fresh], nextID := db.nextID + 1 }
  else
    { rows := db.rows.map (fun r =>
        if r.voteID = v.voteID then { r with choice := choice, timestamp := now }
        else r),
      nextID := db.nextID }

/-- Struct `MyVote` (part_001, lines 114-117). -/
structure MyVote where
  vote : VoteChoice
  timestamp : Int
deriving DecidableEq, Repr

namespace RoomStatusTx

/-- Method `RoomStatusTx.Vote` (part_001, lines 261-286): a nil session is a panic
(`Option.none`); otherwise the existing vote id for (session, room) is looked
up (`QueryRow` returning the first matching row), `sql.ErrNoRows` leaving the
id 0, and `UpdateChoice` is called. -/
def Vote (db : VoteDB) (s : Option Session) (id : RoomID) (choice : VoteChoice)
    (now : Int) : Option VoteDB :=
  match s with
  | none => none
  | some s =>
      let vid : VoteID :=
        match db.rows.find? (votePair s.sessionID id) with
        | some r => r.voteID
        | none => 0
      some (VoteRow.UpdateChoice db
        { voteID := vid, sessionID := s.sessionID, roomID := id,
          choice := choice, timestamp := 0 } choice now)

/-- Method `RoomStatusTx.GetMyVote` (part_001, lines 193-219): a nil session is
treated as not-yet-voted and returns `(nil, nil)` before any query; otherwise
the first row for (session, room) is read, `sql.ErrNoRows` again returning
`(nil, nil)`. The `Except` layer carries the database error channel, which
the pure model never fires. -/
def GetMyVote (db : VoteDB) (s : Option Session) (id : RoomID) :
    Except Unit (Option MyVote) :=
  match s with
  | none => .ok none
  | some s =>
      match db.rows.find? (votePair s.sessionID id) with
      | none => .ok none
      | some r => .ok (some { vote := r.choice, timestamp := r.timestamp })

end RoomStatusTx

/-- The join rows of `vote NATURAL JOIN session` (the only common column of
the two tables is `session_id`). -/
def joinVoteSession (votes : List VoteRow) (sessions : List Session) :
    List (VoteRow × Session) :=
  votes.flatMap (fun v =>
    (sessions.filter (fun s => s.sessionID == v.sessionID)).map (fun s => (v, s)))

/-- The per-choice count computed by the query of `GetStatus` (part_001, lines 233-239):
`SELECT vote.choice, count(vote.vote_id) FROM vote NATURAL JOIN session
WHERE vote.room_id=? AND session.expire>=? GROUP BY vote.choice`. -/
def tallyCount (votes : List VoteRow) (sessions : List Session) (id : RoomID)
    (now : Int) (c : VoteChoice) : Nat :=
  ((joinVoteSession votes sessions).filter (fun p =>
    p.1.roomID == id && decide (now ≤ p.2.expire) && p.1.choice == c)).length

/-- Struct `RoomStatus` (part_001, lines 104-112), without the embedded lock. -/
structure RoomStatus where
  roomID : RoomID
  sensors : List SensorStatus
  hot : Nat
  comfort : Nat
  cold : Nat
deriving DecidableEq, Repr

namespace RoomStatusTx

/-- Method `RoomStatusTx.GetStatus` (part_001, lines 221-259): sensors from the
cache (the empty list when nothing is found), and the per-choice counts of
the group-by query, fields left at zero for choices the query returns no row
for. -/
def GetStatus (cache : SensorCache) (votes : List VoteRow)
    (sessions : List Session) (id : RoomID) (now : Int) : RoomStatus :=
  let sres := getSensorStatusFromCache cache id now
  { roomID := id,
    sensors := if sres.2 then sres.1 else [],
    hot := tallyCount votes sessions id now VoteChoice.Hot,
    comfort := tallyCount votes sessions id now VoteChoice.Comfort,
    cold := tallyCount votes sessions id now VoteChoice.Cold }

end RoomStatusTx

/-- The qualification a vote row must meet to be counted for room `id` and
choice `c` at time `now`: right room, right choice, and some session row with
its id that has not expired. -/
def voteQualifies (sessions : List Session) (id : RoomID) (now : Int)
    (c : VoteChoice) (v : VoteRow) : Bool :=
  v.roomID == id && v.choice == c &&
    sessions.any (fun s => s.sessionID == v.sessionID && decide (now ≤ s.expire))

/-- Well-formedness of the vote store, as the surrounding program maintains
it: every stored row has a positive id below the auto-increment cursor, ids
are unique, and — the §3 invariant the upsert preserves — there is at most
one row per (session, room) pair. -/
def WFVotes (db : VoteDB) : Prop :=
  0 < db.nextID ∧
  (∀ r ∈ db.rows, 0 < r.voteID ∧ r.voteID < db.nextID) ∧
  db.rows.Pairwise (fun a b => a.voteID ≠ b.voteID) ∧
  db.rows.Pairwise (fun a b => ¬(a.sessionID = b.sessionID ∧ a.roomID = b.roomID))

/-! ## Refresh orchestration (`cacheUpdater`, `updateAllSensorStatuses`) -/

/-- The environment one refresh cycle runs against: the outcome of the
`SELECT room_id, thing_name FROM thing` enumeration (a `db.Begin`/`Query`
failure is the error case) and the outcome of the HTTP exchange of each sensor. -/
structure CycleInput where
  enum : Except FetchErr (List (RoomID × ThingName))
  resp : ThingName → Except FetchErr HTTPResponse

/-- Function `updateAllSensorStatuses` (part_001, lines 379-428): an enumeration
failure puts the single error on the channel and launches no fetch;
otherwise one fetch runs per (room, thing) pair, each failure is sent to the
error channel and each success is written into the cache, and after the
wait-group barrier the contents of the closed channel are returned. The
independent fetches are linearised in enumeration order. -/
def updateAllSensorStatuses (inp : CycleInput) (cache : SensorCache)
    (now : Int) : List FetchErr × SensorCache :=
  match inp.enum with
  | .error e => ([e], cache)
  | .ok sensors =>
      sensors.foldl
        (fun acc p =>
          match updateSensorStatus acc.2 p.1 p.2 (inp.resp p.2) now with
          | .error e => (acc.1 ++ [e], acc.2)
          | .ok c' => (acc.1, c'))
        ([], cache)

/-- The observable events of the `cacheUpdater` loop (part_001, lines
356-377), in program order: the fan-in of the sensor updates of one cycle
completing with its collected errors, the session cleanup completing, the
ticker firing, and the `ctx.Done()` branch of the `select` being taken. -/
inductive UpdaterEv
  | fanInDone (errs : List FetchErr)
  | cleanupDone
  | ticked
  | cancelled
deriving DecidableEq, Repr

/-- The event trace of `cacheUpdater`: every iteration runs
`updateAllSensorStatuses` to completion (threading the cache), then the
session cleanup, and only then consults the `select`; `cancel i` says whether
the `ctx.Done()` branch is taken at iteration `i`. `fuel` bounds the number
of modelled iterations of the endless loop. -/
def updaterTrace (inp : Nat → CycleInput) (now : Nat → Int)
    (cancel : Nat → Bool) : SensorCache → Nat → Nat → List UpdaterEv
  | _, _, 0 => []
  | cache, i, fuel + 1 =>
      let r := updateAllSensorStatuses (inp i) cache (now i)
      UpdaterEv.fanInDone r.1 :: UpdaterEv.cleanupDone ::
        (if cancel i then [UpdaterEv.cancelled]
         else UpdaterEv.ticked :: updaterTrace inp now cancel r.2 (i + 1) fuel)

/-- The error lists the first `fuel` refresh cycles produce, independently of
any cancellation: the cancellation-free reference stream. -/
def cycleErrs (inp : Nat → CycleInput) (now : Nat → Int) :
    SensorCache → Nat → Nat → List (List FetchErr)
  | _, _, 0 => []
  | cache, i, fuel + 1 =>
      let r := updateAllSensorStatuses (inp i) cache (now i)
      r.1 :: cycleErrs inp now r.2 (i + 1) fuel

/-- The error a given sensor fetch-and-extract contributes, if any: the
outcome of the fetch pipeline projected to its error side. -/
def fetchErrOf (resp : Except FetchErr HTTPResponse) : Option FetchErr :=
  match fetchFields resp with
  | .error e => some e
  | .ok _ => none

/-- Index access into an event trace (structurally recursive, so that
`traceAt (a :: tr) (n + 1)` reduces to `traceAt tr n` definitionally). -/
def traceAt : List UpdaterEv → Nat → Option UpdaterEv
  | [], _ => none
  | e :: _, 0 => some e
  | _ :: tr, n + 1 => traceAt tr n

/-- Projection of a trace event to the fan-in payload it carries. -/
def fanInErrs : UpdaterEv → Option (List FetchErr)
  | UpdaterEv.fanInDone errs => some errs
  | _ => none

/-- A cycle environment whose sensor enumeration fails (and whose fetches,
never reached, would fail too). -/
def constCycleInput : CycleInput :=
  { enum := Except.error FetchErr.net, resp := fun _ => Except.error FetchErr.net }

/-- A well-formed telemetry response carrying a non-2xx status code: body
`{"rows":[{"temperature":22.5,"humidity":40,"lastUpdated":1000000}]}` with
HTTP status 500. -/
def resp500 : HTTPResponse :=
  { status := 500,
    body := some (JSON.obj [("rows", JSON.arr [JSON.obj
      [("temperature", JSON.num (45 / 2)),
       ("humidity", JSON.num 40),
       ("lastUpdated", JSON.num 1000000)]])]) }

/-- Writing a key and reading it back yields the written value. -/
theorem lookupA_setA_self {α β : Type} [DecidableEq α] (l : List (α × β)) (k : α) (v : β) :
    lookupA (setA l k v) k = some v := by
  induction l with
  | nil => simp [setA, lookupA]
  | cons p rest ih =>
      obtain ⟨k', v'⟩ := p
      by_cases hk : k = k'
      · subst hk
        simp [setA, lookupA]
      · simp [setA, lookupA, hk, ih]

end Temvote

namespace Temvote

/-- Predicate `votePair` unfolded to a proposition. -/
theorem votePair_eq_true {sid : SessionID} {rid : RoomID} {r : VoteRow} :
    votePair sid rid r = true ↔ (r.sessionID = sid ∧ r.roomID = rid) := by
  simp [votePair]

/-- A list whose filtrate is the singleton `[x]` finds `x` first. -/
theorem find?_of_filter_singleton {α : Type} (p : α → Bool) :
    ∀ (l : List α) (x : α), l.filter p = [x] → l.find? p = some x := by
  intro l
  induction l with
  | nil => intro x h; simp at h
  | cons a rest ih =>
      intro x h
      cases hpa : p a with
      | true =>
          rw [List.filter_cons_of_pos hpa] at h
          obtain ⟨rfl, -⟩ := List.cons_eq_cons.mp h
          simp [List.find?, hpa]
      | false =>
          rw [List.filter_cons_of_neg (by simp [hpa])] at h
          simp [List.find?, hpa, ih x h]

/-- If no two rows of `l` share a (session, room) pair, the filtrate for one
pair is exactly the member that matches it. -/
theorem filter_votePair_singleton (sid : SessionID) (rid : RoomID) :
    ∀ l : List VoteRow,
      l.Pairwise (fun a b => ¬(a.sessionID = b.sessionID ∧ a.roomID = b.roomID)) →
      ∀ x ∈ l, votePair sid rid x = true → l.filter (votePair sid rid) = [x] := by
  intro l
  induction l with
  | nil => intro _ x hx; simp at hx
  | cons a rest ih =>
      intro hpw x hx hpx
      rw [List.pairwise_cons] at hpw
      obtain ⟨hhead, hrest⟩ := hpw
      rcases List.mem_cons.mp hx with rfl | hxrest
      · rw [List.filter_cons_of_pos hpx]
        have hnone : rest.filter (votePair sid rid) = [] := by
          rw [List.filter_eq_nil_iff]
          intro b hb hpb
          obtain ⟨hbs, hbr⟩ := votePair_eq_true.mp hpb
          obtain ⟨hxs, hxr⟩ := votePair_eq_true.mp hpx
          exact hhead b hb ⟨hxs.trans hbs.symm, hxr.trans hbr.symm⟩
        rw [hnone]
      · have hpa : votePair sid rid a = false := by
          by_contra hcon
          have hpa' : votePair sid rid a = true := by
            cases h' : votePair sid rid a
            · exact absurd h' hcon
            · rfl
          obtain ⟨has, har⟩ := votePair_eq_true.mp hpa'
          obtain ⟨hxs, hxr⟩ := votePair_eq_true.mp hpx
          exact hhead x hxrest ⟨has.trans hxs.symm, har.trans hxr.symm⟩
        rw [List.filter_cons_of_neg (by simp [hpa])]
        exact ih hrest x hxrest hpx

/-- A mapped filter commutes with a predicate the map preserves. -/
theorem filter_map_of_pres {α : Type} (p : α → Bool) (f : α → α) :
    ∀ l : List α, (∀ x ∈ l, p (f x) = p x) →
      (l.map f).filter p = (l.filter p).map f := by
  intro l
  induction l with
  | nil => intro _; rfl
  | cons a rest ih =>
      intro hpres
      have ha := hpres a (List.mem_cons_self a rest)
      have hrest := ih (fun x hx => hpres x (List.mem_cons_of_mem a hx))
      cases hpa : p a with
      | true =>
          rw [List.map_cons, List.filter_cons_of_pos (by rw [ha, hpa]),
            List.filter_cons_of_pos hpa, List.map_cons, hrest]
      | false =>
          rw [List.map_cons, List.filter_cons_of_neg (by simp [ha, hpa]),
            List.filter_cons_of_neg (by simp [hpa]), hrest]

/-- C1: `getSensorStatusFromCache` returns exactly the cached readings of the
room whose `expire` lies strictly in the future of `now`; the `found` flag is
`false` iff the room has no cache entry or every one of its entries has
`expire ≤ now`; in particular a reading with `now ≥ expire` is never returned
(the function itself never removes anything from the cache — it is read-only
in the embedding by construction). -/
theorem getSensorStatusFromCache_lazy_expiry (cache : SensorCache) (id : RoomID) (now : Int) :
    ((getSensorStatusFromCache cache id now).1 =
      (((lookupA cache id).getD []).map Prod.snd).filter (fun s => decide (now < s.expire))) ∧
    (∀ s ∈ (getSensorStatusFromCache cache id now).1, now < s.expire) ∧
    ((getSensorStatusFromCache cache id now).2 = false ↔
      (lookupA cache id = none ∨
        ∀ s ∈ ((lookupA cache id).getD []).map Prod.snd, s.expire ≤ now)) := by
  unfold getSensorStatusFromCache
  cases h : lookupA cache id with
  | none =>
      refine ⟨rfl, by intro s hs; simp at hs, ?_⟩
      simp
  | some sub =>
      refine ⟨rfl, ?_, ?_⟩
      · intro s hs
        simp only [List.mem_filter, decide_eq_true_eq] at hs
        exact hs.2
      · simp only [Option.getD_some, decide_eq_false_iff_not, not_lt,
          List.length_pos, ne_eq, not_not]
        constructor
        · intro hempty
          right
          intro s hs
          by_contra hlt
          push_neg at hlt
          have : s ∈ (sub.map Prod.snd).filter (fun s => decide (now < s.expire)) := by
            simp only [List.mem_filter, decide_eq_true_eq]
            exact ⟨hs, hlt⟩
          rw [hempty] at this
          simp at this
        · rintro (hnone | hall)
          · exact absurd hnone (by simp)
          · rw [List.filter_eq_nil_iff]
            intro s hs
            simp only [decide_eq_true_eq, not_lt]
            exact hall s hs

/-- C5 counterexample: the claim says the fetch pipeline returns an error
whenever the response status is non-2xx; but `Properties` never inspects the
status code, so a status-500 response with a well-formed body extracts
successfully. -/
theorem fetchFields_non2xx_succeeds :
    resp500.status = 500 ∧
      fetchFields (.ok resp500) = .ok (45 / 2, 40, 1000000) := by
  constructor
  · rfl
  · rfl

/-- C5 (amended): the fetch pipeline (`Properties` plus the field extraction
of `updateSensorStatus`) returns an error whenever the network request fails,
or the body fails to yield `rows[0]` (malformed JSON included, since an
ignored unmarshal error leaves the `nil` value), or `rows[0]` is missing or
mis-types any of `temperature`, `humidity`, `lastUpdated`; the HTTP status
code is never inspected, so the outcome is independent of it. -/
theorem fetchFields_error_conditions :
    (∀ e, fetchFields (.error e) = .error e) ∧
    (∀ st st' b, fetchFields (.ok ⟨st, b⟩) = fetchFields (.ok ⟨st', b⟩)) ∧
    (∀ st b e, proxyA (proxyM (.ok (b.getD JSON.null)) "rows") 0 = .error e →
        fetchFields (.ok ⟨st, b⟩) = .error e) ∧
    (∀ st b v, proxyA (proxyM (.ok (b.getD JSON.null)) "rows") 0 = .ok v →
        ((∃ e, proxyFloat64 (proxyM (.ok v) "temperature") = .error e) ∨
         (∃ e, proxyFloat64 (proxyM (.ok v) "humidity") = .error e) ∨
         (∃ e, proxyInt64 (proxyM (.ok v) "lastUpdated") = .error e)) →
        ∃ e, fetchFields (.ok ⟨st, b⟩) = .error e) := by
  refine ⟨fun e => rfl, fun st st' b => rfl, ?_, ?_⟩
  · intro st b e hrows
    simp only [fetchFields, Properties, hrows]
    rfl
  · intro st b v hrows herr
    simp only [fetchFields, Properties, hrows]
    rcases herr with ⟨e, he⟩ | ⟨e, he⟩ | ⟨e, he⟩
    · rw [he]
      exact ⟨e, rfl⟩
    · cases ht : proxyFloat64 (proxyM (.ok v) "temperature") with
      | error e' => exact ⟨e', rfl⟩
      | ok t =>
          rw [he]
          exact ⟨e, rfl⟩
    · cases ht : proxyFloat64 (proxyM (.ok v) "temperature") with
      | error e' => exact ⟨e', rfl⟩
      | ok t =>
          cases hh : proxyFloat64 (proxyM (.ok v) "humidity") with
          | error e' => exact ⟨e', rfl⟩
          | ok h =>
              rw [he]
              exact ⟨e, rfl⟩

/-- C5 witness: instantiating the error conditions on a concrete network
failure and a concrete body with a missing `humidity` field. -/
theorem fetchFields_error_conditions_witness :
    fetchFields (.error .net) = .error .net ∧
      ∃ e, fetchFields (.ok ⟨200, some (JSON.obj [("rows", JSON.arr [JSON.obj
        [("temperature", JSON.num 22)]])])⟩) = .error e := by
  refine ⟨fetchFields_error_conditions.1 .net, ?_⟩
  exact fetchFields_error_conditions.2.2.2 200
    (some (JSON.obj [("rows", JSON.arr [JSON.obj [("temperature", JSON.num 22)]])]))
    (JSON.obj [("temperature", JSON.num 22)]) rfl
    (Or.inr (Or.inl ⟨.proxy, rfl⟩))

/-- C4: a successfully fetched reading whose converted `lastUpdated` differs
from the fetch-time clock by more than 60 seconds is discarded:
`updateSensorStatus` returns no error and the cache is completely unchanged,
so the reading is never observable through a cache read. -/
theorem updateSensorStatus_stale_discarded (cache : SensorCache) (id : RoomID)
    (name : ThingName) (resp : Except FetchErr HTTPResponse) (now : Int)
    (t h : Rat) (luMs : Int)
    (hok : fetchFields resp = .ok (t, h, luMs))
    (hstale : 60 < |now - Int.tdiv luMs 1000|) :
    updateSensorStatus cache id name resp now = .ok cache ∧
      ∀ (rid : RoomID) (rnow : Int) (c' : SensorCache),
        updateSensorStatus cache id name resp now = .ok c' →
        getSensorStatusFromCache c' rid rnow = getSensorStatusFromCache cache rid rnow := by
  have hmain : updateSensorStatus cache id name resp now = .ok cache := by
    simp only [updateSensorStatus, hok]
    have : ¬ |now - Int.tdiv luMs 1000| ≤ 60 := not_le.mpr hstale
    simp [this]
  refine ⟨hmain, ?_⟩
  intro rid rnow c' hc'
  rw [hmain] at hc'
  cases hc'
  rfl

/-- C4 witness: a status-200 response whose `lastUpdated` (0 ms, hence 0 s)
is 1000 seconds behind the clock is discarded from an empty cache. -/
theorem updateSensorStatus_stale_discarded_witness :
    updateSensorStatus [] 1 "s2" (.ok ⟨200, some (JSON.obj [("rows", JSON.arr [JSON.obj
      [("temperature", JSON.num 22),
       ("humidity", JSON.num 40),
       ("lastUpdated", JSON.num 0)]])])⟩) 1000 = .ok [] := by
  exact (updateSensorStatus_stale_discarded [] 1 "s2" _ 1000 22 40 0 (by rfl) (by decide)).1

/-- C7: on every successful fetch, `lastUpdated` is converted from epoch
milliseconds to epoch seconds by truncating integer division by 1000,
`isConnected` is set to `true` iff `|now - lastUpdated| ≤ 60` at fetch time,
and a stored entry carries `expire = now + CACHE_EXPIRE`; the connected
reading is written into the sub-map of the room under the sensor name, the
disconnected one leaves the cache unchanged. -/
theorem updateSensorStatus_conversion (cache : SensorCache) (id : RoomID)
    (name : ThingName) (resp : Except FetchErr HTTPResponse) (now : Int)
    (t h : Rat) (luMs : Int)
    (hok : fetchFields resp = .ok (t, h, luMs)) :
    ∃ c', updateSensorStatus cache id name resp now = .ok c' ∧
      ((|now - Int.tdiv luMs 1000| ≤ 60 →
          lookupA ((lookupA c' id).getD []) name =
            some { temperature := t, humidity := h, isConnected := true,
                   lastUpdated := Int.tdiv luMs 1000,
                   expire := now + CACHE_EXPIRE }) ∧
       (60 < |now - Int.tdiv luMs 1000| → c' = cache)) := by
  by_cases hconn : |now - Int.tdiv luMs 1000| ≤ 60
  · refine ⟨setA cache id (setA ((lookupA cache id).getD []) name
      { temperature := t, humidity := h, isConnected := true,
        lastUpdated := Int.tdiv luMs 1000, expire := now + CACHE_EXPIRE }), ?_, ?_, ?_⟩
    · simp [updateSensorStatus, hok, hconn]
    · intro _
      rw [lookupA_setA_self, Option.getD_some, lookupA_setA_self]
    · intro hcon
      exact absurd hconn (not_le.mpr hcon)
  · refine ⟨cache, ?_, ?_, fun _ => rfl⟩
    · simp [updateSensorStatus, hok, hconn]
    · intro hc
      exact absurd hc hconn

/-- C7 witness: a reading 10 seconds behind the clock, `lastUpdated`
22500 ms, is stored connected with `lastUpdated = 22` s and
`expire = 32 + 180`. -/
theorem updateSensorStatus_conversion_witness :
    ∃ c', updateSensorStatus [] 1 "s1" (.ok ⟨200, some (JSON.obj [("rows", JSON.arr [JSON.obj
        [("temperature", JSON.num (45 / 2)),
         ("humidity", JSON.num 40),
         ("lastUpdated", JSON.num 22500)]])])⟩) 32 = .ok c' ∧
      ((|(32 : Int) - Int.tdiv 22500 1000| ≤ 60 →
          lookupA ((lookupA c' 1).getD []) "s1" =
            some { temperature := 45 / 2, humidity := 40, isConnected := true,
                   lastUpdated := Int.tdiv 22500 1000, expire := 32 + CACHE_EXPIRE }) ∧
       (60 < |(32 : Int) - Int.tdiv 22500 1000| → c' = [])) := by
  exact updateSensorStatus_conversion [] 1 "s1" _ 32 (45 / 2) 40 22500 (by rfl)

/-- C2: `RoomStatusTx.Vote` first looks up the existing vote id for
(session, room): when the lookup finds nothing it proceeds with id 0 and the
write is an insert (one row longer), otherwise it proceeds with the found id
and the write is an in-place update (same length); two consecutive calls for
the same pair with different choices leave exactly one row for that pair,
carrying the latest choice and timestamp. -/
theorem Vote_upsert_idempotent (db : VoteDB) (s : Session) (id : RoomID)
    (c1 c2 : VoteChoice) (t1 t2 : Int) (db1 db2 : VoteDB)
    (hwf : WFVotes db)
    (h1 : RoomStatusTx.Vote db (some s) id c1 t1 = some db1)
    (h2 : RoomStatusTx.Vote db1 (some s) id c2 t2 = some db2) :
    (db.rows.find? (votePair s.sessionID id) = none →
        db1.rows.length = db.rows.length + 1) ∧
    (∀ r0, db.rows.find? (votePair s.sessionID id) = some r0 →
        db1.rows.length = db.rows.length) ∧
    (∃ r : VoteRow, db2.rows.filter (votePair s.sessionID id) = [r] ∧
        r.choice = c2 ∧ r.timestamp = t2) := by
  obtain ⟨hpos, hbound, hids, hpair⟩ := hwf
  have step1 : ∃ r1 : VoteRow,
      db1.rows.filter (votePair s.sessionID id) = [r1] ∧ 0 < r1.voteID ∧
      (db.rows.find? (votePair s.sessionID id) = none →
          db1.rows.length = db.rows.length + 1) ∧
      (∀ r0, db.rows.find? (votePair s.sessionID id) = some r0 →
          db1.rows.length = db.rows.length) := by
    cases hf : db.rows.find? (votePair s.sessionID id) with
    | none =>
        have hfilter0 : db.rows.filter (votePair s.sessionID id) = [] := by
          rw [List.filter_eq_nil_iff]
          intro r hr hpr
          exact absurd hpr (by simpa using List.find?_eq_none.mp hf r hr)
        have hdb1 : db1 =
            { rows := db.rows ++ [⟨db.nextID, s.sessionID, id, c1, t1⟩],
              nextID := db.nextID + 1 } := by
          have h1' := h1
          simp only [RoomStatusTx.Vote, hf] at h1'
          rw [Option.some_inj] at h1'
          rw [← h1']
          rfl
        refine ⟨⟨db.nextID, s.sessionID, id, c1, t1⟩, ?_, hpos, ?_, ?_⟩
        · rw [hdb1]
          rw [List.filter_append, hfilter0]
          simp [votePair]
        · intro _
          rw [hdb1]
          simp
        · intro r0 hr0
          simp at hr0
    | some r0 =>
        have hmem : r0 ∈ db.rows := List.mem_of_find?_eq_some hf
        have hp0 : votePair s.sessionID id r0 = true := List.find?_some hf
        have hne : r0.voteID ≠ 0 := Nat.pos_iff_ne_zero.mp (hbound r0 hmem).1
        have hdb1 : db1 =
            { rows := db.rows.map (fun r =>
                if r.voteID = r0.voteID then { r with choice := c1, timestamp := t1 }
                else r),
              nextID := db.nextID } := by
          have h1' := h1
          simp only [RoomStatusTx.Vote, hf] at h1'
          rw [Option.some_inj] at h1'
          rw [← h1']
          simp [VoteRow.UpdateChoice, hne]
        have hpres : ∀ x ∈ db.rows,
            votePair s.sessionID id
              (if x.voteID = r0.voteID then { x with choice := c1, timestamp := t1 }
               else x) = votePair s.sessionID id x := by
          intro x _
          by_cases hx : x.voteID = r0.voteID <;> simp [hx, votePair]
        have hsingle : db.rows.filter (votePair s.sessionID id) = [r0] :=
          filter_votePair_singleton _ _ db.rows hpair r0 hmem hp0
        refine ⟨{ r0 with choice := c1, timestamp := t1 }, ?_, (hbound r0 hmem).1, ?_, ?_⟩
        · rw [hdb1]
          show (db.rows.map _).filter _ = _
          rw [filter_map_of_pres _ _ db.rows hpres, hsingle]
          simp
        · intro henone
          simp at henone
        · intro r0' _
          rw [hdb1]
          simp
  obtain ⟨r1, hfil1, hr1pos, hlen1, hlen2⟩ := step1
  have hfind1 : db1.rows.find? (votePair s.sessionID id) = some r1 :=
    find?_of_filter_singleton _ db1.rows r1 hfil1
  have hne1 : r1.voteID ≠ 0 := Nat.pos_iff_ne_zero.mp hr1pos
  have hdb2 : db2.rows = db1.rows.map (fun r =>
      if r.voteID = r1.voteID then { r with choice := c2, timestamp := t2 }
      else r) := by
    have h2' := h2
    simp only [RoomStatusTx.Vote, hfind1] at h2'
    rw [Option.some_inj] at h2'
    rw [← h2']
    simp [VoteRow.UpdateChoice, hne1]
  have hpres2 : ∀ x ∈ db1.rows,
      votePair s.sessionID id
        (if x.voteID = r1.voteID then { x with choice := c2, timestamp := t2 }
         else x) = votePair s.sessionID id x := by
    intro x _
    by_cases hx : x.voteID = r1.voteID <;> simp [hx, votePair]
  refine ⟨hlen1, hlen2, { r1 with choice := c2, timestamp := t2 }, ?_, rfl, rfl⟩
  rw [hdb2, filter_map_of_pres _ _ db1.rows hpres2, hfil1]
  simp

/-- C2 witness: starting from the empty store, session 7 votes Hot and then
Cold for room 3; the first call inserts, and afterwards exactly one row for
the pair remains, carrying Cold at the later timestamp. -/
theorem Vote_upsert_idempotent_witness :
    ((VoteDB.rows ⟨[], 1⟩).find? (votePair 7 3) = none →
        (VoteDB.rows ⟨[⟨1, 7, 3, VoteChoice.Hot, 10⟩], 2⟩).length =
          (VoteDB.rows ⟨[], 1⟩).length + 1) ∧
    (∀ r0, (VoteDB.rows ⟨[], 1⟩).find? (votePair 7 3) = some r0 →
        (VoteDB.rows ⟨[⟨1, 7, 3, VoteChoice.Hot, 10⟩], 2⟩).length =
          (VoteDB.rows ⟨[], 1⟩).length) ∧
    (∃ r : VoteRow,
        (VoteDB.rows ⟨[⟨1, 7, 3, VoteChoice.Cold, 20⟩], 2⟩).filter (votePair 7 3) = [r] ∧
          r.choice = VoteChoice.Cold ∧ r.timestamp = 20) := by
  exact Vote_upsert_idempotent ⟨[], 1⟩ ⟨7, 100⟩ 3 VoteChoice.Hot VoteChoice.Cold 10 20
    ⟨[⟨1, 7, 3, VoteChoice.Hot, 10⟩], 2⟩ ⟨[⟨1, 7, 3, VoteChoice.Cold, 20⟩], 2⟩
    ⟨Nat.one_pos, by simp, List.Pairwise.nil, List.Pairwise.nil⟩
    (by decide) (by decide)

/-- With unique session ids, the number of live join partners of a given
session id is one when a live matching session exists and zero otherwise. -/
theorem filter_live_session_length (k : SessionID) (now : Int) :
    ∀ sessions : List Session,
      sessions.Pairwise (fun a b => a.sessionID ≠ b.sessionID) →
      (sessions.filter (fun s => s.sessionID == k && decide (now ≤ s.expire))).length =
        if sessions.any (fun s => s.sessionID == k && decide (now ≤ s.expire)) then 1
        else 0 := by
  intro sessions
  induction sessions with
  | nil => intro _; rfl
  | cons a rest ih =>
      intro hpw
      rw [List.pairwise_cons] at hpw
      obtain ⟨hhead, hrest⟩ := hpw
      by_cases hid : a.sessionID = k
      · have hrnone : ∀ b ∈ rest, (b.sessionID == k && decide (now ≤ b.expire)) = false := by
          intro b hb
          have : b.sessionID ≠ k := fun hbk => hhead b hb (hid.trans hbk.symm)
          simp [this]
        have hfrest : rest.filter (fun s => s.sessionID == k && decide (now ≤ s.expire)) = [] := by
          rw [List.filter_eq_nil_iff]
          intro b hb
          simp [hrnone b hb]
        have harest : rest.any (fun s => s.sessionID == k && decide (now ≤ s.expire)) = false := by
          rw [List.any_eq_false]
          intro b hb
          simp [hrnone b hb]
        by_cases hlive : now ≤ a.expire
        · rw [List.filter_cons_of_pos (by simp [hid, hlive]), hfrest,
            List.any_cons, harest]
          simp [hid, hlive]
        · rw [List.filter_cons_of_neg (by simp [hlive]), hfrest,
            List.any_cons, harest]
          simp [hlive]
      · rw [List.filter_cons_of_neg (by simp [hid]), List.any_cons]
        have : (a.sessionID == k && decide (now ≤ a.expire)) = false := by simp [hid]
        rw [this, Bool.false_or]
        exact ih hrest

/-- With unique session ids, the group-by count is the number of vote rows
that qualify. -/
theorem tallyCount_eq_filter (sessions : List Session) (id : RoomID) (now : Int)
    (c : VoteChoice)
    (hs : sessions.Pairwise (fun a b => a.sessionID ≠ b.sessionID)) :
    ∀ votes : List VoteRow,
      tallyCount votes sessions id now c =
        (votes.filter (voteQualifies sessions id now c)).length := by
  intro votes
  induction votes with
  | nil => rfl
  | cons v votes ih =>
      have hsplit : tallyCount (v :: votes) sessions id now c =
          ((sessions.filter (fun s => s.sessionID == v.sessionID)).filter (fun s =>
            v.roomID == id && decide (now ≤ s.expire) && v.choice == c)).length +
            tallyCount votes sessions id now c := by
        simp only [tallyCount, joinVoteSession, List.flatMap_cons, List.filter_append,
          List.length_append, List.filter_map, Function.comp_def, List.length_map]
      rw [hsplit, ih]
      by_cases hroom : v.roomID = id
      · by_cases hch : v.choice = c
        · have hinner : (sessions.filter (fun s => s.sessionID == v.sessionID)).filter
              (fun s => v.roomID == id && decide (now ≤ s.expire) && v.choice == c) =
              sessions.filter (fun s => s.sessionID == v.sessionID && decide (now ≤ s.expire)) := by
            rw [List.filter_filter]
            apply List.filter_congr
            intro s _
            simp [hroom, hch, Bool.and_comm]
          rw [hinner, filter_live_session_length v.sessionID now sessions hs]
          by_cases hany :
              sessions.any (fun s => s.sessionID == v.sessionID && decide (now ≤ s.expire)) = true
          · rw [if_pos hany, List.filter_cons_of_pos (by simp [voteQualifies, hroom, hch, hany])]
            simp [Nat.add_comm]
          · have hany' :
                sessions.any (fun s => s.sessionID == v.sessionID && decide (now ≤ s.expire)) = false := by
              cases h' : sessions.any (fun s => s.sessionID == v.sessionID && decide (now ≤ s.expire))
              · rfl
              · exact absurd h' hany
            rw [if_neg hany, List.filter_cons_of_neg (by simp [voteQualifies, hany'])]
            simp
        · have hinner : (sessions.filter (fun s => s.sessionID == v.sessionID)).filter
              (fun s => v.roomID == id && decide (now ≤ s.expire) && v.choice == c) = [] := by
            rw [List.filter_eq_nil_iff]
            intro s _
            simp [hch]
          rw [hinner, List.filter_cons_of_neg (by simp [voteQualifies, hch])]
          simp
      · have hinner : (sessions.filter (fun s => s.sessionID == v.sessionID)).filter
            (fun s => v.roomID == id && decide (now ≤ s.expire) && v.choice == c) = [] := by
          rw [List.filter_eq_nil_iff]
          intro s _
          simp [hroom]
        rw [hinner, List.filter_cons_of_neg (by simp [voteQualifies, hroom])]
        simp

/-- C3: with unique session ids, each per-choice field of `GetStatus` counts
exactly the vote rows of the room with that choice that are joined to a
session whose expiry is `≥ now`; a vote row whose session has expired (or
whose session row is gone) is never counted even though the row still exists;
and a room with no qualifying vote rows yields `hot = comfort = cold = 0`
(an empty query result set is not an error, the counters simply keep
their zero values). -/
theorem GetStatus_tally (cache : SensorCache) (votes : List VoteRow)
    (sessions : List Session) (id : RoomID) (now : Int)
    (hs : sessions.Pairwise (fun a b => a.sessionID ≠ b.sessionID)) :
    ((RoomStatusTx.GetStatus cache votes sessions id now).hot =
        (votes.filter (voteQualifies sessions id now VoteChoice.Hot)).length ∧
     (RoomStatusTx.GetStatus cache votes sessions id now).comfort =
        (votes.filter (voteQualifies sessions id now VoteChoice.Comfort)).length ∧
     (RoomStatusTx.GetStatus cache votes sessions id now).cold =
        (votes.filter (voteQualifies sessions id now VoteChoice.Cold)).length) ∧
    ((∀ v ∈ votes, voteQualifies sessions id now v.choice v = false) →
      (RoomStatusTx.GetStatus cache votes sessions id now).hot = 0 ∧
      (RoomStatusTx.GetStatus cache votes sessions id now).comfort = 0 ∧
      (RoomStatusTx.GetStatus cache votes sessions id now).cold = 0) := by
  have hhot := tallyCount_eq_filter sessions id now VoteChoice.Hot hs votes
  have hcomfort := tallyCount_eq_filter sessions id now VoteChoice.Comfort hs votes
  have hcold := tallyCount_eq_filter sessions id now VoteChoice.Cold hs votes
  have hzero : ∀ c : VoteChoice,
      (∀ v ∈ votes, voteQualifies sessions id now v.choice v = false) →
      (votes.filter (voteQualifies sessions id now c)).length = 0 := by
    intro c hnoq
    rw [List.length_eq_zero, List.filter_eq_nil_iff]
    intro v hv hq
    have hch : v.choice = c := by
      by_contra hne
      simp [voteQualifies, hne] at hq
    have hfalse := hnoq v hv
    rw [hch] at hfalse
    rw [hfalse] at hq
    cases hq
  refine ⟨⟨hhot, hcomfort, hcold⟩, ?_⟩
  intro hnoq
  exact ⟨hhot.trans (hzero _ hnoq), hcomfort.trans (hzero _ hnoq),
    hcold.trans (hzero _ hnoq)⟩

/-- C3 witness: one vote from a live session (7) and one from an expired
session (8) for room 3; only the live Hot vote is counted, and room 4 with no
qualifying votes tallies all zeros. -/
theorem GetStatus_tally_witness :
    ((RoomStatusTx.GetStatus [] [⟨1, 7, 3, VoteChoice.Hot, 10⟩, ⟨2, 8, 3, VoteChoice.Cold, 11⟩]
        [⟨7, 100⟩, ⟨8, 20⟩] 3 50).hot =
      ([⟨1, 7, 3, VoteChoice.Hot, 10⟩, ⟨2, 8, 3, VoteChoice.Cold, 11⟩].filter
        (voteQualifies [⟨7, 100⟩, ⟨8, 20⟩] 3 50 VoteChoice.Hot)).length ∧
     (RoomStatusTx.GetStatus [] [⟨1, 7, 3, VoteChoice.Hot, 10⟩, ⟨2, 8, 3, VoteChoice.Cold, 11⟩]
        [⟨7, 100⟩, ⟨8, 20⟩] 3 50).comfort =
      ([⟨1, 7, 3, VoteChoice.Hot, 10⟩, ⟨2, 8, 3, VoteChoice.Cold, 11⟩].filter
        (voteQualifies [⟨7, 100⟩, ⟨8, 20⟩] 3 50 VoteChoice.Comfort)).length ∧
     (RoomStatusTx.GetStatus [] [⟨1, 7, 3, VoteChoice.Hot, 10⟩, ⟨2, 8, 3, VoteChoice.Cold, 11⟩]
        [⟨7, 100⟩, ⟨8, 20⟩] 3 50).cold =
      ([⟨1, 7, 3, VoteChoice.Hot, 10⟩, ⟨2, 8, 3, VoteChoice.Cold, 11⟩].filter
        (voteQualifies [⟨7, 100⟩, ⟨8, 20⟩] 3 50 VoteChoice.Cold)).length) ∧
    ((∀ v ∈ [⟨1, 7, 3, VoteChoice.Hot, 10⟩, ⟨2, 8, 3, VoteChoice.Cold, 11⟩],
        voteQualifies [⟨7, 100⟩, ⟨8, 20⟩] 4 50 v.choice v = false) →
      (RoomStatusTx.GetStatus [] [⟨1, 7, 3, VoteChoice.Hot, 10⟩, ⟨2, 8, 3, VoteChoice.Cold, 11⟩]
        [⟨7, 100⟩, ⟨8, 20⟩] 4 50).hot = 0 ∧
      (RoomStatusTx.GetStatus [] [⟨1, 7, 3, VoteChoice.Hot, 10⟩, ⟨2, 8, 3, VoteChoice.Cold, 11⟩]
        [⟨7, 100⟩, ⟨8, 20⟩] 4 50).comfort = 0 ∧
      (RoomStatusTx.GetStatus [] [⟨1, 7, 3, VoteChoice.Hot, 10⟩, ⟨2, 8, 3, VoteChoice.Cold, 11⟩]
        [⟨7, 100⟩, ⟨8, 20⟩] 4 50).cold = 0) := by
  refine ⟨(GetStatus_tally [] _ _ 3 50 (by decide)).1,
    (GetStatus_tally [] _ _ 4 50 (by decide)).2⟩

/-- C6: `RoomStatusTx.Vote` aborts by panicking (modelled `Option.none`)
exactly when the session of the transaction is nil; for every non-nil session it
returns normally, so the nil session is the only aborting condition. -/
theorem Vote_nil_session_panics (db : VoteDB) (s : Option Session) (id : RoomID)
    (choice : VoteChoice) (now : Int) :
    RoomStatusTx.Vote db s id choice now = none ↔ s = none := by
  cases s with
  | none => simp [RoomStatusTx.Vote]
  | some s => simp [RoomStatusTx.Vote]

/-- C10: `RoomStatusTx.GetMyVote` on a nil session returns no vote and no
error, before touching the store — the same normal not-found outcome as a
session that exists but has no vote row for the room. -/
theorem GetMyVote_nil_session (db : VoteDB) (id : RoomID) :
    RoomStatusTx.GetMyVote db none id = .ok none ∧
      ∀ s : Session, db.rows.find? (votePair s.sessionID id) = none →
        RoomStatusTx.GetMyVote db (some s) id = RoomStatusTx.GetMyVote db none id := by
  refine ⟨rfl, ?_⟩
  intro s hnone
  simp [RoomStatusTx.GetMyVote, hnone]

/-- C8 (amended): per-sensor fetch failures are non-fatal — the returned
error list collects exactly the errors of the failing sensors (every sensor is
fetched, no failure stops the others) and the final cache is the successful
updates of the successful
sensors applied in order; an enumeration failure instead aborts the
fetch phase, returning just that one error with the cache untouched — but it
does not end the refresh cycle: session cleanup still runs before the next
tick, as the trace conjunct shows for every cycle. -/
theorem updateAllSensorStatuses_fan_in (now : Int) :
    (∀ (e : FetchErr) (f : ThingName → Except FetchErr HTTPResponse)
        (cache : SensorCache),
        updateAllSensorStatuses ⟨.error e, f⟩ cache now = ([e], cache)) ∧
    (∀ (sensors : List (RoomID × ThingName))
        (f : ThingName → Except FetchErr HTTPResponse) (cache : SensorCache),
        updateAllSensorStatuses ⟨.ok sensors, f⟩ cache now =
          (sensors.filterMap (fun p => fetchErrOf (f p.2)),
           (sensors.filter (fun p => (fetchErrOf (f p.2)).isNone)).foldl
             (fun c p =>
               match updateSensorStatus c p.1 p.2 (f p.2) now with
               | .ok c' => c'
               | .error _ => c) cache)) ∧
    (∀ (inp : Nat → CycleInput) (nowf : Nat → Int) (cancel : Nat → Bool)
        (cache : SensorCache) (i fuel : Nat),
        ∃ rest, updaterTrace inp nowf cancel cache i (fuel + 1) =
          UpdaterEv.fanInDone (updateAllSensorStatuses (inp i) cache (nowf i)).1 ::
            UpdaterEv.cleanupDone :: rest) := by
  refine ⟨fun e f cache => rfl, ?_, fun inp nowf cancel cache i fuel => ⟨_, rfl⟩⟩
  intro sensors f cache
  have key : ∀ (sensors : List (RoomID × ThingName)) (errs : List FetchErr)
      (cache : SensorCache),
      sensors.foldl
        (fun acc p =>
          match updateSensorStatus acc.2 p.1 p.2 (f p.2) now with
          | .error e => (acc.1 ++ [e], acc.2)
          | .ok c' => (acc.1, c')) (errs, cache) =
        (errs ++ sensors.filterMap (fun p => fetchErrOf (f p.2)),
         (sensors.filter (fun p => (fetchErrOf (f p.2)).isNone)).foldl
           (fun c p =>
             match updateSensorStatus c p.1 p.2 (f p.2) now with
             | .ok c' => c'
             | .error _ => c) cache) := by
    intro sensors
    induction sensors with
    | nil => intro errs cache; simp
    | cons p rest ih =>
        intro errs cache
        rw [List.foldl_cons]
        cases hf : fetchFields (f p.2) with
        | error e =>
            have hupd : updateSensorStatus cache p.1 p.2 (f p.2) now = .error e := by
              simp [updateSensorStatus, hf]
            have hfe : fetchErrOf (f p.2) = some e := by simp [fetchErrOf, hf]
            rw [hupd]
            rw [ih]
            rw [List.filterMap_cons, hfe, List.filter_cons, hfe]
            simp
        | ok v =>
            obtain ⟨t, hm, lu⟩ := v
            have hfe : fetchErrOf (f p.2) = none := by simp [fetchErrOf, hf]
            have hupd : ∃ c', updateSensorStatus cache p.1 p.2 (f p.2) now = .ok c' := by
              simp only [updateSensorStatus, hf]
              by_cases hcn : |now - Int.tdiv lu 1000| ≤ 60 <;> simp [hcn]
            obtain ⟨c', hupd⟩ := hupd
            rw [hupd]
            rw [ih]
            simp [List.filterMap_cons, hfe, List.filter_cons, hupd]
  have hstart : updateAllSensorStatuses ⟨.ok sensors, f⟩ cache now =
      sensors.foldl
        (fun acc p =>
          match updateSensorStatus acc.2 p.1 p.2 (f p.2) now with
          | .error e => (acc.1 ++ [e], acc.2)
          | .ok c' => (acc.1, c')) ([], cache) := rfl
  rw [hstart, key sensors [] cache, List.nil_append]

/-- C8 counterexample to the claim as stated: a cycle whose sensor
enumeration fails (`constCycleInput.enum` is an error) does not end early —
its trace still contains the session-cleanup event after the fan-in that
reported the enumeration error. -/
theorem enum_failure_cycle_still_cleans :
    updaterTrace (fun _ => constCycleInput) (fun _ => 0) (fun _ => true) [] 0 1 =
      [UpdaterEv.fanInDone [FetchErr.net], UpdaterEv.cleanupDone,
        UpdaterEv.cancelled] := by
  rfl

/-- C9: in every trace of the `cacheUpdater` loop, the cancellation branch of
the `select` is observed only immediately after the session cleanup of a
cycle, itself immediately after the fan-in of that cycle completed; it is the last
event (the loop returns); moreover the fan-in payloads of the trace are an
initial run of the cancellation-free cycle stream — each observed fan-in is
the complete result of its cycle, so no in-flight fetch is cut short by
cancellation. -/
theorem cacheUpdater_cancel_between_cycles (inp : Nat → CycleInput)
    (now : Nat → Int) (cancel : Nat → Bool) :
    (∀ (cache : SensorCache) (i fuel k : Nat),
        traceAt (updaterTrace inp now cancel cache i fuel) k =
          some UpdaterEv.cancelled →
        ∃ j, k = j + 2 ∧
          traceAt (updaterTrace inp now cancel cache i fuel) (j + 1) =
            some UpdaterEv.cleanupDone ∧
          (∃ errs, traceAt (updaterTrace inp now cancel cache i fuel) j =
            some (UpdaterEv.fanInDone errs)) ∧
          traceAt (updaterTrace inp now cancel cache i fuel) (j + 3) = none) ∧
    (∀ (cache : SensorCache) (i fuel : Nat), ∃ m, m ≤ fuel ∧
        (updaterTrace inp now cancel cache i fuel).filterMap fanInErrs =
          cycleErrs inp now cache i m) := by
  constructor
  · intro cache i fuel
    induction fuel generalizing cache i with
    | zero =>
        intro k hk
        have : traceAt [] k = (none : Option UpdaterEv) := rfl
        rw [show updaterTrace inp now cancel cache i 0 = [] from rfl, this] at hk
        cases hk
    | succ fuel ih =>
        intro k hk
        rcases hR : updateAllSensorStatuses (inp i) cache (now i) with ⟨es, cache'⟩
        cases hcan : cancel i with
        | true =>
            have htr : updaterTrace inp now cancel cache i (fuel + 1) =
                [UpdaterEv.fanInDone es, UpdaterEv.cleanupDone,
                  UpdaterEv.cancelled] := by
              simp [updaterTrace, hR, hcan]
            rw [htr] at hk ⊢
            cases k with
            | zero => simp [traceAt] at hk
            | succ k1 =>
                cases k1 with
                | zero => simp [traceAt] at hk
                | succ k2 =>
                    cases k2 with
                    | zero => exact ⟨0, rfl, rfl, ⟨es, rfl⟩, rfl⟩
                    | succ k3 => simp [traceAt] at hk
        | false =>
            have htr : updaterTrace inp now cancel cache i (fuel + 1) =
                UpdaterEv.fanInDone es :: UpdaterEv.cleanupDone ::
                  UpdaterEv.ticked ::
                    updaterTrace inp now cancel cache' (i + 1) fuel := by
              simp [updaterTrace, hR, hcan]
            rw [htr] at hk ⊢
            cases k with
            | zero => simp [traceAt] at hk
            | succ k1 =>
                cases k1 with
                | zero => simp [traceAt] at hk
                | succ k2 =>
                    cases k2 with
                    | zero => simp [traceAt] at hk
                    | succ k3 =>
                        have hk' : traceAt (updaterTrace inp now cancel cache'
                            (i + 1) fuel) k3 = some UpdaterEv.cancelled := hk
                        obtain ⟨j, rfl, h1, h2, h3⟩ := ih cache' (i + 1) k3 hk'
                        refine ⟨j + 3, by omega, h1, ?_, h3⟩
                        obtain ⟨errs, herrs⟩ := h2
                        exact ⟨errs, herrs⟩
  · intro cache i fuel
    induction fuel generalizing cache i with
    | zero => exact ⟨0, Nat.le_refl 0, rfl⟩
    | succ fuel ih =>
        rcases hR : updateAllSensorStatuses (inp i) cache (now i) with ⟨es, cache'⟩
        cases hcan : cancel i with
        | true =>
            refine ⟨1, Nat.succ_le_succ (Nat.zero_le _), ?_⟩
            simp [updaterTrace, cycleErrs, hR, hcan, fanInErrs]
        | false =>
            obtain ⟨m, hm, hfm⟩ := ih cache' (i + 1)
            refine ⟨m + 1, Nat.succ_le_succ hm, ?_⟩
            simp [updaterTrace, cycleErrs, hR, hcan, fanInErrs, hfm]

/-- C9 witness: a one-cycle trace that is cancelled at its first `select`:
the cancellation event sits at index 2, right after the cleanup at index 1
and the fan-in at index 0, and the trace ends there. -/
theorem cacheUpdater_cancel_between_cycles_witness :
    ∃ j, 2 = j + 2 ∧
      traceAt (updaterTrace (fun _ => constCycleInput) (fun _ => 0) (fun _ => true)
        [] 0 1) (j + 1) = some UpdaterEv.cleanupDone ∧
      (∃ errs, traceAt (updaterTrace (fun _ => constCycleInput) (fun _ => 0)
        (fun _ => true) [] 0 1) j = some (UpdaterEv.fanInDone errs)) ∧
      traceAt (updaterTrace (fun _ => constCycleInput) (fun _ => 0) (fun _ => true)
        [] 0 1) (j + 3) = none := by
  exact (cacheUpdater_cancel_between_cycles (fun _ => constCycleInput)
    (fun _ => 0) (fun _ => true)).1 [] 0 1 2 rfl

/-- C10 witness: the empty store, where session 5 has no vote for room 1. -/
theorem GetMyVote_nil_session_witness :
    RoomStatusTx.GetMyVote ⟨[], 1⟩ none 1 = .ok none ∧
      RoomStatusTx.GetMyVote ⟨[], 1⟩ (some ⟨5, 100⟩) 1 =
        RoomStatusTx.GetMyVote ⟨[], 1⟩ none 1 := by
  exact ⟨(GetMyVote_nil_session ⟨[], 1⟩ 1).1,
    (GetMyVote_nil_session ⟨[], 1⟩ 1).2 ⟨5, 100⟩ rfl⟩

end Temvote
